import Mathlib

/-!
Verification of the `create` command of `Acidburn0zzz/hub`
(`src/commands/create.go`), a shallow embedding in Lean 4.

The command reconciles a local git working copy with a remote hosted
repository: it resolves a desired project identity, looks the repository
up on the host, creates it when missing (unless in dry-run/noop mode),
rejects a visibility conflict, and finally binds the local "origin"
remote, surfacing the project web URL.

Everything with logic in `create.go` is embedded directly from the Go
source.  Helper functions of the repository that are called by
`create.go` but whose source is not part of this verification corpus
(`github.NewProject`, `Project.SameAs`, `github.SanitizeProjectName`,
URL builders) are modelled from the specification; each such definition
carries a doc comment starting with `Modelled from the spec:`.

External effects (git subprocesses, the GitHub API client, the local
repository reader) are modelled as an explicit environment of
`Except`-valued fields, and the engine additionally records a trace of
the external calls it performs, so that claims about "no create call is
made" or "aborts before any version-control call" are statements about
the produced trace.
-/

/-- Characters of a list up to (excluding) the first occurrence of `sep`,
paired with the characters after it.  This is the behaviour of Go's
`strings.SplitN(s, sep, 2)` for a one-character separator that occurs in
`s`: split on the first occurrence only. -/
def splitFirst : List Char → Char → List Char × List Char
  | [], _ => ([], [])
  | c :: cs, sep =>
    if c = sep then ([], cs)
    else
      let p := splitFirst cs sep
      (c :: p.1, p.2)

/-- Whether a character occurs in a list; `hasSlash s.data` embeds Go's
`strings.Contains(s, "/")` when applied with separator `'/'` baked in. -/
def hasSep : List Char → Char → Bool
  | [], _ => false
  | c :: cs, sep => if c = sep then true else hasSep cs sep

/-- Go `strings.Contains(s, "/")`. -/
def containsSlash (s : String) : Bool :=
  hasSep s.data '/'

/-- Go `strings.SplitN(s, "/", 2)` restricted to the two components the
source reads (`split[0]`, `split[1]`). -/
def splitSlashOnce (s : String) : String × String :=
  let p := splitFirst s.data '/'
  (⟨p.1⟩, ⟨p.2⟩)

/-- The project identity triple: owner, repository name, host.
Spec data model `ProjectIdentity`; source type `github.Project` as used
by `create.go`. -/
structure Project where
  owner : String
  name : String
  host : String
deriving DecidableEq, Repr

/-- Character-wise lowercasing (Go `strings.ToLower` on ASCII input). -/
def lowerStr (s : String) : String :=
  ⟨s.data.map Char.toLower⟩

/-- Modelled from the spec: `Project.SameAs` is not under `src/`.  The
spec states two identities denote the same project iff their owners and
names match case-insensitively and they share a host. -/
def Project.SameAs (p q : Project) : Bool :=
  lowerStr p.owner == lowerStr q.owner &&
    lowerStr p.name == lowerStr q.name &&
    p.host == q.host

/-- Modelled from the spec: `github.NewProject` is not under `src/`.
`create.go` calls it both with an already-split `(owner, name)` pair and
with a canonical `owner/name` full name in the owner position and an
empty name (`NewProject(repo.FullName, "", host)`); the spec describes
the latter as "owner+name parsed from `fullName`, no explicit name
part".  So when the owner argument contains a `/` it is split on its
first `/`, the part before it becoming the owner and the part after it
becoming the name when no explicit name was given; otherwise the
arguments are taken as already split (the spec's §4.2 splits raw input
on the first `/` before construction). -/
def NewProject (owner name host : String) : Project :=
  if containsSlash owner then
    let p := splitSlashOnce owner
    { owner := p.1, name := if name = "" then p.2 else name, host := host }
  else
    { owner := owner, name := name, host := host }

/-- Modelled from the spec: `github.SanitizeProjectName` is not under
`src/`.  The spec describes it as lowercasing plus stripping characters
disallowed in repository names, the exact charset being an external
concern; modelled as lowercasing and keeping ASCII alphanumerics, dash,
underscore and dot. -/
def SanitizeProjectName (s : String) : String :=
  ⟨(lowerStr s).data.filter fun c =>
    c.isAlphanum || c == '-' || c == '_' || c == '.'⟩

/-- Go `regexp.MustCompile("^[^-]").MatchString(s)`: true iff `s` is
nonempty and its first character is not `-`. -/
def firstCharNotDash (s : String) : Bool :=
  match s.data with
  | [] => false
  | c :: _ => c != '-'

/-- Modelled from the spec: `Project.GitURL` is not under `src/`; the
remote URL for an identity, format chosen by the gateway's URL-building
convention. -/
def Project.GitURL (p : Project) : String :=
  "git@" ++ p.host ++ ":" ++ p.owner ++ "/" ++ p.name ++ ".git"

/-- Modelled from the spec: `Project.WebURL` is not under `src/`; the
web-viewable URL for an identity. -/
def Project.WebURL (p : Project) : String :=
  "https://" ++ p.host ++ "/" ++ p.owner ++ "/" ++ p.name

/-- The resolved default host configuration (`host.User`, `host.Host`
in the source). -/
structure HostInfo where
  user : String
  hostName : String
deriving DecidableEq, Repr

/-- The gateway's repository record (`repo.FullName`, `repo.Private`
in the source; spec `RemoteRepositoryRecord`). -/
structure Repo where
  fullName : String
  isPrivate : Bool
deriving DecidableEq, Repr

deriving instance DecidableEq for Except

/-- The local "origin" remote as read from the working copy:
its name, push URL, and the result of deriving a project identity from
its URL (`originRemote.Project()` may fail). -/
structure OriginRemote where
  rname : String
  pushURL : String
  projectResult : Except String Project
deriving DecidableEq, Repr

/-- The local repository handle; `origin = none` models
`localRepo.RemoteByName("origin")` returning an error. -/
structure LocalRepo where
  origin : Option OriginRemote
deriving DecidableEq, Repr

/-- Command arguments: positional parameters and the global noop
(dry-run) flag (`args.IsParamsEmpty`, `args.FirstParam`, `args.Noop`). -/
structure Args where
  params : List String
  noop : Bool
deriving DecidableEq, Repr

/-- The create-command flags read by `create.go`
(`flagCreatePrivate`, `flagCreateDescription`, `flagCreateHomepage`). -/
structure Flags where
  priv : Bool
  descr : String
  homepage : String
deriving DecidableEq, Repr

/-- The environment of external collaborators: each field is the
observable outcome of one external call (git subprocesses, host
configuration, GitHub API, local repo reader). -/
structure Env where
  gitDir : Except String String
  workdirName : Except String String
  defaultHost : Except String HostInfo
  lookup : Project → Except String Repo
  createRepo : Project → String → String → Bool → Except String Repo
  localRepo : Except String LocalRepo

/-- One external call, as recorded in the trace the embedding produces
alongside its result. -/
inductive Call where
  | gitDir
  | workdirName
  | hostLookup
  | gatewayLookup (p : Project)
  | gatewayCreate (p : Project) (descr homepage : String) (priv : Bool)
  | readOrigin
  | queueGitRemoteAdd (argv : List String)
deriving DecidableEq, Repr

/-- Whether a call is a network call against the repository host. -/
def Call.isNetwork : Call → Bool
  | .gatewayLookup _ => true
  | .gatewayCreate _ _ _ _ => true
  | _ => false

/-- Whether a call is a gateway create call. -/
def Call.isCreate : Call → Bool
  | .gatewayCreate _ _ _ _ => true
  | _ => false

/-- Whether a call touches the local version control system (git):
the git-dir probe, the working-directory name, the origin-remote read,
or a queued git command. -/
def Call.isVcs : Call → Bool
  | .gitDir => true
  | .workdirName => true
  | .readOrigin => true
  | .queueGitRemoteAdd _ => true
  | _ => false

/-- Whether a call mutates (or schedules a mutation of) local state. -/
def Call.isMutation : Call → Bool
  | .queueGitRemoteAdd _ => true
  | _ => false

/-- A non-fatal informational notice surfaced to the user
(`ui.Errorln` / `ui.Errorf` in the source). -/
inductive Notice where
  | existingRepoDetected
  | remoteConflict (rname pushURL : String)
deriving DecidableEq, Repr

/-- Outcome of the reconciliation engine: the final identity, whether a
repository was created, and the notices emitted. -/
structure ReconcileOut where
  finalProject : Project
  created : Bool
  notices : List Notice
deriving DecidableEq, Repr

/-- The action the local-remote binder decides on (spec §4.4). -/
inductive BindAction where
  | noopAction
  | addRemote (argv : List String)
  | conflictWarning (rname pushURL : String)
deriving DecidableEq, Repr

/-- Successful overall result: final identity, created flag, notices,
and the surfaced web URL. -/
structure CreateOk where
  project : Project
  created : Bool
  notices : List Notice
  url : String
deriving DecidableEq, Repr

/-- Overall result of the command: fatal abort with a message
(`utils.Check`) or success. -/
inductive CreateResult where
  | fatal (msg : String)
  | ok (r : CreateOk)
deriving DecidableEq, Repr

/-- Identity construction as performed by `create.go` lines 103-110:
`owner := host.User; if strings.Contains(newRepoName, "/") { split :=
strings.SplitN(newRepoName, "/", 2); owner = split[0]; newRepoName =
split[1] }; project := github.NewProject(owner, newRepoName, host.Host)`. -/
def fromRawName (rawName defaultOwner host : String) : Project :=
  if containsSlash rawName then
    let p := splitSlashOnce rawName
    NewProject p.1 p.2 host
  else
    NewProject defaultOwner rawName host

/-- Name resolution, `create.go` lines 83-95: from the working
directory name when no argument is given (sanitized), else the first
parameter verbatim after the `^[^-]` check. -/
def resolveRepoName (env : Env) (args : Args) :
    Except String String × List Call :=
  match args.params with
  | [] =>
    match env.workdirName with
    | .error e => (.error e, [.workdirName])
    | .ok d => (.ok (SanitizeProjectName d), [.workdirName])
  | p :: _ =>
    if firstCharNotDash p then (.ok p, [])
    else (.error ("invalid argument: " ++ p), [])

/-- Step 3 of the reconciliation engine (`create.go` lines 131-137):
when no usable record was found, call the gateway create operation
unless in noop mode; on success the final identity comes from the
authoritative full name the gateway returned. -/
def createIfMissing (env : Env) (project : Project) (wantPrivate : Bool)
    (descr homepage : String) (dryRun : Bool) :
    Except String ReconcileOut × List Call :=
  if dryRun then
    (.ok ⟨project, false, []⟩, [.gatewayLookup project])
  else
    match env.createRepo project descr homepage wantPrivate with
    | .error e =>
      (.error e,
        [.gatewayLookup project,
          .gatewayCreate project descr homepage wantPrivate])
    | .ok repo =>
      (.ok ⟨NewProject repo.fullName "" project.host, true, []⟩,
        [.gatewayLookup project,
          .gatewayCreate project descr homepage wantPrivate])

/-- The reconciliation engine (`create.go` lines 113-137): look the
desired identity up; a found record whose parsed identity is the same
project is either a fatal visibility conflict (public record, private
requested) or a reuse; any other lookup outcome falls through to the
creation step. -/
def reconcile (env : Env) (project : Project) (wantPrivate : Bool)
    (descr homepage : String) (dryRun : Bool) :
    Except String ReconcileOut × List Call :=
  match env.lookup project with
  | .ok repo =>
    let foundProject := NewProject repo.fullName "" project.host
    if foundProject.SameAs project then
      if !repo.isPrivate && wantPrivate then
        (.error ("Repository '" ++ repo.fullName ++
            "' already exists and is public"),
          [.gatewayLookup project])
      else
        (.ok ⟨foundProject, false, [.existingRepoDetected]⟩,
          [.gatewayLookup project])
    else
      createIfMissing env project wantPrivate descr homepage dryRun
  | .error _ =>
    createIfMissing env project wantPrivate descr homepage dryRun

/-- Whether the gateway lookup finds a usable record for the desired
identity: a successful lookup whose parsed identity is the same
project. -/
def usableRecordFound (env : Env) (project : Project) : Bool :=
  match env.lookup project with
  | .ok repo => (NewProject repo.fullName "" project.host).SameAs project
  | .error _ => false

/-- The local-remote binder (`create.go` lines 142-151): an existing
origin remote whose derived identity fails to parse or does not match
the final identity produces a conflict warning; a matching one is left
alone; an absent one has `git remote add -f origin <url>` queued. -/
def bindOrigin (lr : LocalRepo) (project : Project) :
    BindAction × List Call :=
  match lr.origin with
  | some orig =>
    match orig.projectResult with
    | .error _ => (.conflictWarning orig.rname orig.pushURL, [.readOrigin])
    | .ok op =>
      if op.SameAs project then (.noopAction, [.readOrigin])
      else (.conflictWarning orig.rname orig.pushURL, [.readOrigin])
  | none =>
    let argv := ["git", "remote", "add", "-f", "origin", project.GitURL]
    (.addRemote argv, [.readOrigin, .queueGitRemoteAdd argv])

/-- The notices a binding action surfaces. -/
def BindAction.toNotices : BindAction → List Notice
  | .conflictWarning n u => [.remoteConflict n u]
  | _ => []

/-- Tail of `create` (`create.go` lines 139-155): read the local
repository, bind the origin remote, and surface the web URL of the
final identity. -/
def finishBind (env : Env) (out : ReconcileOut) (trace : List Call) :
    CreateResult × List Call :=
  match env.localRepo with
  | .error e => (.fatal e, trace ++ [.readOrigin])
  | .ok lr =>
    let ab := bindOrigin lr out.finalProject
    (.ok ⟨out.finalProject, out.created,
        out.notices ++ ab.1.toNotices, out.finalProject.WebURL⟩,
      trace ++ ab.2)

/-- The decision part of `create` (`create.go` lines 76-137), before
origin binding: git-dir precondition, name resolution, host
configuration, identity construction, reconciliation.  Every error is
fatal and surfaced verbatim by `create`. -/
def createDecision (env : Env) (args : Args) (flags : Flags) :
    Except String ReconcileOut × List Call :=
  match env.gitDir with
  | .error _ =>
    (.error "'create' must be run from inside a git repository", [.gitDir])
  | .ok _ =>
    match resolveRepoName env args with
    | (.error e, tr) => (.error e, Call.gitDir :: tr)
    | (.ok rawName, tr) =>
      match env.defaultHost with
      | .error e =>
        (.error ("creating repository: " ++ e),
          Call.gitDir :: tr ++ [Call.hostLookup])
      | .ok host =>
        let project := fromRawName rawName host.user host.hostName
        let rc := reconcile env project flags.priv flags.descr
          flags.homepage args.noop
        match rc.1 with
        | .error e =>
          (.error e, Call.gitDir :: tr ++ Call.hostLookup :: rc.2)
        | .ok out =>
          (.ok out, Call.gitDir :: tr ++ Call.hostLookup :: rc.2)

/-- The `create` command (`create.go` lines 76-157): the decision part
followed by origin binding and the web URL. -/
def create (env : Env) (args : Args) (flags : Flags) :
    CreateResult × List Call :=
  match (createDecision env args flags).1 with
  | .error e => (.fatal e, (createDecision env args flags).2)
  | .ok out => finishBind env out (createDecision env args flags).2

/-- Sample host configuration for concrete instantiations. -/
def sampleHost : HostInfo := ⟨"alice", "github.com"⟩

/-- Sample desired identity for concrete instantiations. -/
def sampleProject : Project := ⟨"myorg", "widgets", "github.com"⟩

/-- Sample public repository record, with canonical casing differing
from the requested one. -/
def samplePublicRepo : Repo := ⟨"MyOrg/Widgets", false⟩

/-- Sample private repository record. -/
def samplePrivateRepo : Repo := ⟨"MyOrg/Widgets", true⟩

/-- Environment builder for concrete instantiations: git directory and
host configuration resolve, the gateway lookup and create return the
given results, the local repository reads as given. -/
def mkEnv (lk cr : Except String Repo) (lr : Except String LocalRepo) : Env :=
  { gitDir := .ok ".git"
    workdirName := .ok "Widgets"
    defaultHost := .ok sampleHost
    lookup := fun _ => lk
    createRepo := fun _ _ _ _ => cr
    localRepo := lr }

/-- Sample arguments carrying one explicit parameter. -/
def sampleArgs (p : String) (noop : Bool) : Args := ⟨[p], noop⟩

/-- Sample flags with nothing set. -/
def plainFlags : Flags := ⟨false, "", ""⟩

/-- Sample local repository whose origin remote points at an unrelated
project. -/
def conflictOriginRepo : LocalRepo :=
  ⟨some ⟨"origin", "git@github.com:other/unrelated.git",
    .ok ⟨"other", "unrelated", "github.com"⟩⟩⟩

/-- The successful result of creating `myorg/widgets` (canonicalised by
the gateway to `MyOrg/Widgets`) with no origin remote configured. -/
def createdOk : CreateOk :=
  ⟨⟨"MyOrg", "Widgets", "github.com"⟩, true, [],
    "https://github.com/MyOrg/Widgets"⟩

/-- The same result when the origin remote points at an unrelated
project: only the conflict notice differs. -/
def createdOkConflict : CreateOk :=
  ⟨⟨"MyOrg", "Widgets", "github.com"⟩, true,
    [.remoteConflict "origin" "git@github.com:other/unrelated.git"],
    "https://github.com/MyOrg/Widgets"⟩

/-- C1: when the gateway lookup returns a record whose parsed identity
is the same project as the desired one, and it is not the case that the
record is public while a private repository was requested, the engine
takes the reuse branch: it emits the non-fatal existing-repository
notice, the final identity is the identity parsed from the record's
full name, `created` is `false`, and the trace contains no gateway
create call. -/
theorem reconcile_reuse_branch (env : Env) (project : Project)
    (repo : Repo) (wantPrivate : Bool) (descr homepage : String)
    (dryRun : Bool)
    (hl : env.lookup project = .ok repo)
    (hs : (NewProject repo.fullName "" project.host).SameAs project = true)
    (hv : (!repo.isPrivate && wantPrivate) = false) :
    reconcile env project wantPrivate descr homepage dryRun =
      (.ok ⟨NewProject repo.fullName "" project.host, false,
          [.existingRepoDetected]⟩,
        [.gatewayLookup project]) ∧
    ∀ c ∈ (reconcile env project wantPrivate descr homepage dryRun).2,
      c.isCreate = false := by
  have h : reconcile env project wantPrivate descr homepage dryRun =
      (.ok ⟨NewProject repo.fullName "" project.host, false,
          [.existingRepoDetected]⟩,
        [.gatewayLookup project]) := by
    unfold reconcile
    rw [hl]
    simp [hs, hv]
  refine ⟨h, ?_⟩
  rw [h]
  intro c hc
  simp only [List.mem_singleton] at hc
  subst hc
  rfl

/-- Witness for C1: a lookup that returns the public record
`MyOrg/Widgets` for the requested `myorg/widgets` without a private
request is reused. -/
theorem reconcile_reuse_branch_witness :
    ((mkEnv (.ok samplePublicRepo) (.error "unused") (.ok ⟨none⟩)).lookup
        sampleProject = .ok samplePublicRepo) ∧
    ((NewProject samplePublicRepo.fullName ""
        sampleProject.host).SameAs sampleProject = true) ∧
    ((!samplePublicRepo.isPrivate && false) = false) ∧
    (reconcile (mkEnv (.ok samplePublicRepo) (.error "unused")
        (.ok ⟨none⟩)) sampleProject false "" "" false =
      (.ok ⟨NewProject samplePublicRepo.fullName "" sampleProject.host,
          false, [.existingRepoDetected]⟩,
        [.gatewayLookup sampleProject]) ∧
      ∀ c ∈ (reconcile (mkEnv (.ok samplePublicRepo) (.error "unused")
          (.ok ⟨none⟩)) sampleProject false "" "" false).2,
        c.isCreate = false) :=
  ⟨rfl, by decide, by decide,
    reconcile_reuse_branch _ _ _ _ _ _ _ rfl (by decide) (by decide)⟩

/-- C2: when the lookup finds a record that is the same project, the
record is not private, and a private repository was requested, the
engine fails fatally with the visibility-conflict error, and its trace
contains no gateway create call and no local mutation. -/
theorem reconcile_visibility_conflict (env : Env) (project : Project)
    (repo : Repo) (descr homepage : String) (dryRun : Bool)
    (hl : env.lookup project = .ok repo)
    (hs : (NewProject repo.fullName "" project.host).SameAs project = true)
    (hp : repo.isPrivate = false) :
    reconcile env project true descr homepage dryRun =
      (.error ("Repository '" ++ repo.fullName ++
          "' already exists and is public"),
        [.gatewayLookup project]) ∧
    ∀ c ∈ (reconcile env project true descr homepage dryRun).2,
      c.isCreate = false ∧ c.isMutation = false := by
  have h : reconcile env project true descr homepage dryRun =
      (.error ("Repository '" ++ repo.fullName ++
          "' already exists and is public"),
        [.gatewayLookup project]) := by
    unfold reconcile
    rw [hl]
    simp [hs, hp]
  refine ⟨h, ?_⟩
  rw [h]
  intro c hc
  simp only [List.mem_singleton] at hc
  subst hc
  exact ⟨rfl, rfl⟩

/-- Witness for C2: requesting a private `myorg/widgets` while the
public `MyOrg/Widgets` exists aborts with the conflict error. -/
theorem reconcile_visibility_conflict_witness :
    ((mkEnv (.ok samplePublicRepo) (.error "unused") (.ok ⟨none⟩)).lookup
        sampleProject = .ok samplePublicRepo) ∧
    ((NewProject samplePublicRepo.fullName ""
        sampleProject.host).SameAs sampleProject = true) ∧
    (samplePublicRepo.isPrivate = false) ∧
    (reconcile (mkEnv (.ok samplePublicRepo) (.error "unused")
        (.ok ⟨none⟩)) sampleProject true "" "" false =
      (.error ("Repository '" ++ samplePublicRepo.fullName ++
          "' already exists and is public"),
        [.gatewayLookup sampleProject]) ∧
      ∀ c ∈ (reconcile (mkEnv (.ok samplePublicRepo) (.error "unused")
          (.ok ⟨none⟩)) sampleProject true "" "" false).2,
        c.isCreate = false ∧ c.isMutation = false) :=
  ⟨rfl, by decide, rfl,
    reconcile_visibility_conflict _ _ _ _ _ _ rfl (by decide) rfl⟩

/-- C3: a failed gateway lookup is handled identically whatever the
error is, and identically to the absence of a usable record: the engine
proceeds to the creation step (`createIfMissing`), so two environments
that agree on the create operation but fail the lookup with different
errors produce identical results. -/
theorem reconcile_lookup_error_uniform (env env2 : Env)
    (project : Project) (e1 e2 : String) (wantPrivate : Bool)
    (descr homepage : String) (dryRun : Bool)
    (h1 : env.lookup project = .error e1)
    (h2 : env2.lookup project = .error e2)
    (hc : env.createRepo = env2.createRepo) :
    reconcile env project wantPrivate descr homepage dryRun =
      createIfMissing env project wantPrivate descr homepage dryRun ∧
    reconcile env project wantPrivate descr homepage dryRun =
      reconcile env2 project wantPrivate descr homepage dryRun := by
  constructor
  · unfold reconcile
    rw [h1]
  · unfold reconcile
    rw [h1, h2]
    unfold createIfMissing
    rw [hc]

/-- Witness for C3: a not-found error and an unrelated transport error
lead to the same result. -/
theorem reconcile_lookup_error_uniform_witness :
    ((mkEnv (.error "Not Found") (.ok samplePrivateRepo)
        (.ok ⟨none⟩)).lookup sampleProject = .error "Not Found") ∧
    ((mkEnv (.error "connection timed out") (.ok samplePrivateRepo)
        (.ok ⟨none⟩)).lookup sampleProject =
      .error "connection timed out") ∧
    ((mkEnv (.error "Not Found") (.ok samplePrivateRepo)
        (.ok ⟨none⟩)).createRepo =
      (mkEnv (.error "connection timed out") (.ok samplePrivateRepo)
        (.ok ⟨none⟩)).createRepo) ∧
    (reconcile (mkEnv (.error "Not Found") (.ok samplePrivateRepo)
        (.ok ⟨none⟩)) sampleProject true "" "" false =
      createIfMissing (mkEnv (.error "Not Found") (.ok samplePrivateRepo)
        (.ok ⟨none⟩)) sampleProject true "" "" false ∧
    reconcile (mkEnv (.error "Not Found") (.ok samplePrivateRepo)
        (.ok ⟨none⟩)) sampleProject true "" "" false =
      reconcile (mkEnv (.error "connection timed out")
        (.ok samplePrivateRepo) (.ok ⟨none⟩)) sampleProject
        true "" "" false) :=
  ⟨rfl, rfl, rfl,
    reconcile_lookup_error_uniform _ _ _ _ _ _ _ _ _ rfl rfl rfl⟩

/-- C4: in dry-run (noop) mode with no usable record found by the
lookup, the engine issues zero gateway create calls, keeps the final
identity equal to the desired identity, and reports `created = false`. -/
theorem reconcile_dry_run_no_create (env : Env) (project : Project)
    (wantPrivate : Bool) (descr homepage : String)
    (hu : usableRecordFound env project = false) :
    reconcile env project wantPrivate descr homepage true =
      (.ok ⟨project, false, []⟩, [.gatewayLookup project]) ∧
    ∀ c ∈ (reconcile env project wantPrivate descr homepage true).2,
      c.isCreate = false := by
  have h : reconcile env project wantPrivate descr homepage true =
      (.ok ⟨project, false, []⟩, [.gatewayLookup project]) := by
    unfold usableRecordFound at hu
    unfold reconcile
    cases hl : env.lookup project with
    | ok repo =>
      rw [hl] at hu
      simp only [] at hu
      simp [hu, createIfMissing]
    | error e =>
      simp [createIfMissing]
  refine ⟨h, ?_⟩
  rw [h]
  intro c hc
  simp only [List.mem_singleton] at hc
  subst hc
  rfl

/-- Witness for C4: with a failing lookup and noop set, nothing is
created and the desired identity is kept. -/
theorem reconcile_dry_run_no_create_witness :
    (usableRecordFound (mkEnv (.error "Not Found")
        (.ok samplePrivateRepo) (.ok ⟨none⟩)) sampleProject = false) ∧
    (reconcile (mkEnv (.error "Not Found") (.ok samplePrivateRepo)
        (.ok ⟨none⟩)) sampleProject false "" "" true =
      (.ok ⟨sampleProject, false, []⟩, [.gatewayLookup sampleProject]) ∧
    ∀ c ∈ (reconcile (mkEnv (.error "Not Found") (.ok samplePrivateRepo)
        (.ok ⟨none⟩)) sampleProject false "" "" true).2,
      c.isCreate = false) :=
  ⟨by decide, reconcile_dry_run_no_create _ _ _ _ _ (by decide)⟩

theorem hasSep_iff_mem (l : List Char) (c : Char) :
    hasSep l c = true ↔ c ∈ l := by
  induction l with
  | nil => simp [hasSep]
  | cons x xs ih =>
    unfold hasSep
    by_cases hx : x = c
    · subst hx
      simp
    · simp [hx, ih, Ne.symm hx]

theorem hasSep_eq_false_iff (l : List Char) (c : Char) :
    hasSep l c = false ↔ c ∉ l := by
  rw [← Bool.not_eq_true, not_iff_not]
  exact hasSep_iff_mem l c

theorem splitFirst_fst_not_mem (l : List Char) (c : Char) :
    c ∉ (splitFirst l c).1 := by
  induction l with
  | nil => simp [splitFirst]
  | cons x xs ih =>
    unfold splitFirst
    by_cases hx : x = c
    · simp [hx]
    · simp [hx, ih, Ne.symm hx]

theorem splitFirst_snd_of_count_le_one (l : List Char) (c : Char)
    (h : l.count c ≤ 1) : c ∉ (splitFirst l c).2 := by
  induction l with
  | nil => simp [splitFirst]
  | cons x xs ih =>
    unfold splitFirst
    by_cases hx : x = c
    · subst hx
      simp only [if_pos rfl]
      rw [List.count_cons_self] at h
      have : xs.count x = 0 := by omega
      exact (List.count_eq_zero).1 this
    · simp only [if_neg hx]
      apply ih
      rw [List.count_cons_of_ne (fun hcx => hx hcx.symm)] at h
      exact h

theorem splitFirst_append_cons (l1 l2 : List Char) (c : Char)
    (h : c ∉ l1) : splitFirst (l1 ++ c :: l2) c = (l1, l2) := by
  induction l1 with
  | nil => simp [splitFirst]
  | cons x xs ih =>
    have hx : x ≠ c := fun hxc => h (hxc ▸ List.mem_cons_self x xs)
    have hxs : c ∉ xs := fun hm => h (List.mem_cons_of_mem x hm)
    simp only [List.cons_append]
    unfold splitFirst
    simp [hx, ih hxs]

theorem hasSep_append_cons (l1 l2 : List Char) (c : Char) :
    hasSep (l1 ++ c :: l2) c = true := by
  rw [hasSep_iff_mem]
  simp

theorem string_data_append (s t : String) :
    (s ++ t).data = s.data ++ t.data := by
  cases s
  cases t
  rfl

theorem NewProject_of_slashless_owner (owner name host : String)
    (h : containsSlash owner = false) :
    NewProject owner name host = ⟨owner, name, host⟩ := by
  unfold NewProject
  rw [h]
  simp

/-- C5 counterexample: identity construction splits on the first `/`
only, so the raw name `org/sub/repo` yields the identity
`⟨org, sub/repo⟩` whose name component does contain `/`, contrary to
the claimed invariant that a constructed name never contains `/`. -/
theorem fromRawName_nested_slash_counterexample :
    fromRawName "org/sub/repo" "alice" "github.com" =
      ⟨"org", "sub/repo", "github.com"⟩ ∧
    containsSlash
      (fromRawName "org/sub/repo" "alice" "github.com").name = true := by
  decide

/-- C5 amended: the name component of a constructed identity contains
no `/` whenever the raw input contains at most one `/` (and the default
owner, an account name, contains none); with two or more `/` in the raw
input the construction splits on the first one only and the name keeps
the rest. -/
theorem fromRawName_at_most_one_slash (rawName defaultOwner host : String)
    (h1 : rawName.data.count '/' ≤ 1)
    (h2 : containsSlash defaultOwner = false) :
    containsSlash (fromRawName rawName defaultOwner host).name = false := by
  unfold fromRawName
  cases hc : containsSlash rawName with
  | false =>
    simp only [Bool.false_eq_true, if_neg]
    rw [NewProject_of_slashless_owner _ _ _ h2]
    exact hc
  | true =>
    simp only [if_pos]
    unfold splitSlashOnce
    have hfst : containsSlash ⟨(splitFirst rawName.data '/').1⟩ = false := by
      unfold containsSlash
      rw [hasSep_eq_false_iff]
      exact splitFirst_fst_not_mem rawName.data '/'
    rw [NewProject_of_slashless_owner _ _ _ hfst]
    unfold containsSlash
    rw [hasSep_eq_false_iff]
    exact splitFirst_snd_of_count_le_one rawName.data '/' h1

/-- Witness for the amended C5: a raw name with a single `/` yields a
slash-free name component. -/
theorem fromRawName_at_most_one_slash_witness :
    ("org/widgets".data.count '/' ≤ 1) ∧
    (containsSlash "alice" = false) ∧
    containsSlash
      (fromRawName "org/widgets" "alice" "github.com").name = false :=
  ⟨by decide, by decide,
    fromRawName_at_most_one_slash "org/widgets" "alice" "github.com"
      (by decide) (by decide)⟩

/-- C6: a raw name containing `/` is split on the first `/` only, the
part before it becoming the owner and the part after it the name, and a
raw name without `/` gets the default account owner from the host
configuration (owners being slash-free account names). -/
theorem fromRawName_first_slash_split (a b r defaultOwner host : String)
    (ha : containsSlash a = false)
    (hr : containsSlash r = false)
    (ho : containsSlash defaultOwner = false) :
    fromRawName (a ++ "/" ++ b) defaultOwner host = ⟨a, b, host⟩ ∧
    fromRawName r defaultOwner host = ⟨defaultOwner, r, host⟩ := by
  constructor
  · have hdata : (a ++ "/" ++ b).data = a.data ++ '/' :: b.data := by
      rw [string_data_append, string_data_append]
      simp
    have hna : '/' ∉ a.data := (hasSep_eq_false_iff a.data '/').1 ha
    have hcs : containsSlash (a ++ "/" ++ b) = true := by
      unfold containsSlash
      rw [hdata]
      exact hasSep_append_cons a.data b.data '/'
    unfold fromRawName
    rw [hcs]
    simp only [if_pos]
    unfold splitSlashOnce
    rw [hdata, splitFirst_append_cons a.data b.data '/' hna]
    exact NewProject_of_slashless_owner a b host ha
  · unfold fromRawName
    rw [hr]
    simp only [Bool.false_eq_true, if_neg]
    exact NewProject_of_slashless_owner defaultOwner r host ho

/-- Witness for C6: `org/widgets` splits into owner `org` and name
`widgets`; `widgets` alone gets the default owner `alice`. -/
theorem fromRawName_first_slash_split_witness :
    (containsSlash "org" = false) ∧
    (containsSlash "widgets" = false) ∧
    (containsSlash "alice" = false) ∧
    (fromRawName ("org" ++ "/" ++ "widgets") "alice" "github.com" =
      ⟨"org", "widgets", "github.com"⟩ ∧
    fromRawName "widgets" "alice" "github.com" =
      ⟨"alice", "widgets", "github.com"⟩) :=
  ⟨by decide, by decide, by decide,
    fromRawName_first_slash_split "org" "widgets" "widgets" "alice"
      "github.com" (by decide) (by decide) (by decide)⟩

/-- C7: the binder's action is fully determined by the origin state: an
origin remote whose URL fails to parse, or whose identity is not the
same project as the final identity, produces a non-fatal conflict
warning with no mutating command queued; a matching origin remote
produces no action; an absent origin remote schedules (queues, does not
execute inline) `git remote add -f origin <url>` for the final
identity. -/
theorem bindOrigin_three_cases (lr : LocalRepo) (project : Project) :
    (∀ orig e, lr.origin = some orig → orig.projectResult = .error e →
      bindOrigin lr project =
        (.conflictWarning orig.rname orig.pushURL, [.readOrigin])) ∧
    (∀ orig op, lr.origin = some orig → orig.projectResult = .ok op →
      op.SameAs project = false →
      bindOrigin lr project =
        (.conflictWarning orig.rname orig.pushURL, [.readOrigin])) ∧
    (∀ orig op, lr.origin = some orig → orig.projectResult = .ok op →
      op.SameAs project = true →
      bindOrigin lr project = (.noopAction, [.readOrigin])) ∧
    (lr.origin = none →
      bindOrigin lr project =
        (.addRemote
            ["git", "remote", "add", "-f", "origin", project.GitURL],
          [.readOrigin, .queueGitRemoteAdd
            ["git", "remote", "add", "-f", "origin", project.GitURL]])) := by
  refine ⟨?_, ?_, ?_, ?_⟩
  · intro orig e ho hp
    unfold bindOrigin
    rw [ho]
    simp [hp]
  · intro orig op ho hp hs
    unfold bindOrigin
    rw [ho]
    simp [hp, hs]
  · intro orig op ho hp hs
    unfold bindOrigin
    rw [ho]
    simp [hp, hs]
  · intro ho
    unfold bindOrigin
    rw [ho]

/-- Witness for C7: the three origin states (unrelated origin, matching
origin, absent origin) at concrete values. -/
theorem bindOrigin_three_cases_witness :
    (bindOrigin ⟨some ⟨"origin", "git@github.com:other/unrelated.git",
        .ok ⟨"other", "unrelated", "github.com"⟩⟩⟩ sampleProject =
      (.conflictWarning "origin" "git@github.com:other/unrelated.git",
        [.readOrigin])) ∧
    (bindOrigin ⟨some ⟨"origin", "git@github.com:MyOrg/Widgets.git",
        .ok ⟨"MyOrg", "Widgets", "github.com"⟩⟩⟩ sampleProject =
      (.noopAction, [.readOrigin])) ∧
    (bindOrigin ⟨none⟩ sampleProject =
      (.addRemote ["git", "remote", "add", "-f", "origin",
          sampleProject.GitURL],
        [.readOrigin, .queueGitRemoteAdd ["git", "remote", "add", "-f",
          "origin", sampleProject.GitURL]])) :=
  ⟨(bindOrigin_three_cases _ sampleProject).2.1 _ _ rfl rfl (by decide),
    (bindOrigin_three_cases _ sampleProject).2.2.1 _ _ rfl rfl (by decide),
    (bindOrigin_three_cases _ sampleProject).2.2.2 rfl⟩

/-- C10: outside a git working copy (the git-directory probe fails) the
command aborts fatally with the fixed message, with the probe as the
only external call: before any name resolution, host-configuration
lookup or gateway call. -/
theorem create_requires_git_repo (env : Env) (args : Args)
    (flags : Flags) (e : String) (h : env.gitDir = .error e) :
    create env args flags =
      (.fatal "'create' must be run from inside a git repository",
        [.gitDir]) := by
  unfold create createDecision
  rw [h]

/-- Witness for C10: a failing git-directory probe aborts the command. -/
theorem create_requires_git_repo_witness :
    ({ mkEnv (.error "x") (.error "x") (.ok ⟨none⟩) with
        gitDir := .error "not a git repository" }.gitDir =
      .error "not a git repository") ∧
    create { mkEnv (.error "x") (.error "x") (.ok ⟨none⟩) with
        gitDir := .error "not a git repository" }
      (sampleArgs "widgets" false) plainFlags =
      (.fatal "'create' must be run from inside a git repository",
        [.gitDir]) :=
  ⟨rfl, create_requires_git_repo _ _ _ "not a git repository" rfl⟩

/-- C8 counterexample: an explicit argument starting with `-` does
abort the command fatally with the invalid-argument error, but not
before any version-control call: the git-directory probe, a
version-control call, has already been made when the abort happens, as
the trace of the aborted run shows. -/
theorem create_dash_vcs_call_counterexample :
    ((sampleArgs "-x" false).params = ["-x"]) ∧
    (firstCharNotDash "-x" = false) ∧
    ((create (mkEnv (.error "x") (.error "x") (.ok ⟨none⟩))
        (sampleArgs "-x" false) plainFlags).1 =
      .fatal "invalid argument: -x") ∧
    ∃ c ∈ (create (mkEnv (.error "x") (.error "x") (.ok ⟨none⟩))
        (sampleArgs "-x" false) plainFlags).2, c.isVcs = true := by
  decide

/-- C8 amended: with an explicit argument failing the `^[^-]` check,
the command fails fatally with the invalid-argument error, before any
network call and before any version-control call other than the
initial git-directory probe: the whole trace is that single probe. -/
theorem create_dash_invalid_argument (env : Env) (args : Args)
    (flags : Flags) (g p : String) (ps : List String)
    (hg : env.gitDir = .ok g)
    (hp : args.params = p :: ps)
    (hd : firstCharNotDash p = false) :
    create env args flags =
      (.fatal ("invalid argument: " ++ p), [.gitDir]) := by
  have hc : createDecision env args flags =
      (.error ("invalid argument: " ++ p), [.gitDir]) := by
    unfold createDecision resolveRepoName
    rw [hg, hp]
    simp [hd]
  unfold create
  rw [hc]

/-- Witness for the amended C8: argument `-x` aborts with a one-call
trace. -/
theorem create_dash_invalid_argument_witness :
    ((mkEnv (.error "x") (.error "x") (.ok ⟨none⟩)).gitDir =
      .ok ".git") ∧
    ((sampleArgs "-x" false).params = ["-x"]) ∧
    (firstCharNotDash "-x" = false) ∧
    create (mkEnv (.error "x") (.error "x") (.ok ⟨none⟩))
      (sampleArgs "-x" false) plainFlags =
      (.fatal ("invalid argument: " ++ "-x"), [.gitDir]) :=
  ⟨rfl, rfl, rfl,
    create_dash_invalid_argument _ _ _ ".git" "-x" [] rfl rfl rfl⟩

theorem createDecision_ignores_localRepo (env : Env) (args : Args)
    (flags : Flags) (lrx : Except String LocalRepo) :
    createDecision { env with localRepo := lrx } args flags =
      createDecision env args flags := by
  cases env
  rfl

theorem finishBind_ok_inv (env : Env) (out : ReconcileOut)
    (tr : List Call) (r : CreateOk)
    (h : (finishBind env out tr).1 = .ok r) :
    r.project = out.finalProject ∧ r.created = out.created ∧
    r.url = out.finalProject.WebURL := by
  unfold finishBind at h
  cases hl : env.localRepo with
  | error e =>
    rw [hl] at h
    simp at h
  | ok lr =>
    rw [hl] at h
    simp only [] at h
    injection h with h2
    subst h2
    exact ⟨rfl, rfl, rfl⟩

/-- C9: whenever the command succeeds, the surfaced URL is the
web-viewable URL of the final identity; and the final identity and URL
do not depend on the local origin state, so a run whose origin points
at an unrelated project (a conflict warning) surfaces the same URL,
reflecting the final identity and not the origin remote. -/
theorem create_url_from_final_identity (env : Env) (args : Args)
    (flags : Flags) (lrx : Except String LocalRepo) (r r2 : CreateOk)
    (h : (create env args flags).1 = .ok r)
    (h2 : (create { env with localRepo := lrx } args flags).1 = .ok r2) :
    r.url = r.project.WebURL ∧ r2.project = r.project ∧
    r2.url = r.url := by
  unfold create at h h2
  rw [createDecision_ignores_localRepo] at h2
  cases hcd : (createDecision env args flags).1 with
  | error e =>
    rw [hcd] at h
    simp at h
  | ok out =>
    rw [hcd] at h h2
    simp only [] at h h2
    obtain ⟨hp1, hc1, hu1⟩ := finishBind_ok_inv _ _ _ _ h
    obtain ⟨hp2, hc2, hu2⟩ := finishBind_ok_inv _ _ _ _ h2
    refine ⟨?_, ?_, ?_⟩
    · rw [hu1, hp1]
    · rw [hp2, hp1]
    · rw [hu2, hu1]

/-- Witness for C9: a created `MyOrg/Widgets` surfaces its own web URL
both with a clean origin and with an origin pointing at
`other/unrelated` (which only adds the conflict notice). -/
theorem create_url_from_final_identity_witness :
    ((create (mkEnv (.error "Not Found") (.ok samplePublicRepo)
        (.ok ⟨none⟩)) (sampleArgs "myorg/widgets" false)
        plainFlags).1 = .ok createdOk) ∧
    ((create { mkEnv (.error "Not Found") (.ok samplePublicRepo)
        (.ok ⟨none⟩) with localRepo := .ok conflictOriginRepo }
        (sampleArgs "myorg/widgets" false) plainFlags).1 =
      .ok createdOkConflict) ∧
    (createdOk.url = createdOk.project.WebURL ∧
      createdOkConflict.project = createdOk.project ∧
      createdOkConflict.url = createdOk.url) :=
  ⟨by decide, by decide,
    create_url_from_final_identity
      (mkEnv (.error "Not Found") (.ok samplePublicRepo) (.ok ⟨none⟩))
      (sampleArgs "myorg/widgets" false) plainFlags
      (.ok conflictOriginRepo) createdOk createdOkConflict
      (by decide) (by decide)⟩
